import Mathlib

/-!
SPS30 driver (sps30.h): constants, inline members and the serial frame format

The header `src/sps30.h` carries the data model of the driver: the
measurement record, the single-value identifiers, the error codes, the
serial (SHDLC) command codes, the I2C opcodes, the buffer capacities and
the inline public members of `class SPS30`.  Bytes and machine words are
natural numbers; a byte is a number below 256.

The out-of-line members (`Instruct`, `Get_Single_Value`, `Get_Device_info`)
are only declared in the header, so the inline members that forward to them
take them as an argument.  The serial frame codec (`ByteStuff`,
`ByteUnStuff`, `SHDLC_calc_CRC`, `SHDLC_fill_buffer`, the reply parser) is
likewise only declared; its model follows the written specification and is
marked as such.
-/

namespace SPS30

/-! ## The measurement record and the single-value identifiers -/

/-- The record `struct sps_values`, fields in declaration order.  The C
fields are `float`; the record is kept generic in the field type. -/
structure sps_values (α : Type) where
  MassPM1 : α
  MassPM2 : α
  MassPM4 : α
  MassPM10 : α
  NumPM0 : α
  NumPM1 : α
  NumPM2 : α
  NumPM4 : α
  NumPM10 : α
  PartSize : α

/-- The memory order of the fields of `struct sps_values`. -/
def sps_values.toList {α : Type} (v : sps_values α) : List α :=
  [v.MassPM1, v.MassPM2, v.MassPM4, v.MassPM10, v.NumPM0, v.NumPM1, v.NumPM2,
   v.NumPM4, v.NumPM10, v.PartSize]

def v_MassPM1 : Nat := 1
def v_MassPM2 : Nat := 2
def v_MassPM4 : Nat := 3
def v_MassPM10 : Nat := 4
def v_NumPM0 : Nat := 5
def v_NumPM1 : Nat := 6
def v_NumPM2 : Nat := 7
def v_NumPM4 : Nat := 8
def v_NumPM10 : Nat := 9
def v_PartSize : Nat := 10

/-- The names shared by the fields of `sps_values`, the `v_` identifiers and
the `Get` accessors, in the declaration order of the record. -/
inductive Field where
  | MassPM1 | MassPM2 | MassPM4 | MassPM10
  | NumPM0 | NumPM1 | NumPM2 | NumPM4 | NumPM10
  | PartSize
  deriving DecidableEq, Repr

/-- All field names, in the declaration order of `struct sps_values`. -/
def Field.all : List Field :=
  [.MassPM1, .MassPM2, .MassPM4, .MassPM10, .NumPM0, .NumPM1, .NumPM2, .NumPM4,
   .NumPM10, .PartSize]

/-- The `#define v_<name>` of a field name. -/
def Field.ident : Field → Nat
  | .MassPM1 => v_MassPM1
  | .MassPM2 => v_MassPM2
  | .MassPM4 => v_MassPM4
  | .MassPM10 => v_MassPM10
  | .NumPM0 => v_NumPM0
  | .NumPM1 => v_NumPM1
  | .NumPM2 => v_NumPM2
  | .NumPM4 => v_NumPM4
  | .NumPM10 => v_NumPM10
  | .PartSize => v_PartSize

/-- The member of `struct sps_values` with a given name. -/
def Field.get {α : Type} : Field → sps_values α → α
  | .MassPM1, v => v.MassPM1
  | .MassPM2, v => v.MassPM2
  | .MassPM4, v => v.MassPM4
  | .MassPM10, v => v.MassPM10
  | .NumPM0, v => v.NumPM0
  | .NumPM1, v => v.NumPM1
  | .NumPM2, v => v.NumPM2
  | .NumPM4, v => v.NumPM4
  | .NumPM10, v => v.NumPM10
  | .PartSize, v => v.PartSize

/-! ## Error codes -/

def ERR_OK : Nat := 0x00
def ERR_DATALENGTH : Nat := 0x01
def ERR_UNKNOWNCMD : Nat := 0x02
def ERR_ACCESSRIGHT : Nat := 0x03
def ERR_PARAMETER : Nat := 0x04
def ERR_OUTOFRANGE : Nat := 0x28
def ERR_CMDSTATE : Nat := 0x43
def ERR_TIMEOUT : Nat := 0x50
def ERR_PROTOCOL : Nat := 0x51

/-- The nine error codes, in the order of their definition. -/
def errorCodes : List Nat :=
  [ERR_OK, ERR_DATALENGTH, ERR_UNKNOWNCMD, ERR_ACCESSRIGHT, ERR_PARAMETER,
   ERR_OUTOFRANGE, ERR_CMDSTATE, ERR_TIMEOUT, ERR_PROTOCOL]

/-- The codes the device itself reports in the state byte of a reply. -/
def deviceCodes : List Nat :=
  [ERR_OK, ERR_DATALENGTH, ERR_UNKNOWNCMD, ERR_ACCESSRIGHT, ERR_PARAMETER,
   ERR_OUTOFRANGE, ERR_CMDSTATE]

/-- The codes the driver injects on its own. -/
def driverCodes : List Nat := [ERR_TIMEOUT, ERR_PROTOCOL]

/-! ## Build configuration and buffer capacities -/

/-- What decides the preprocessor branches of the header: whether the
target is an ATmega328(P), and whether the lines defining `INCLUDE_I2C` and
`INCLUDE_UART` were left in by the user. -/
structure BuildConfig where
  avr_atmega328 : Bool
  define_INCLUDE_I2C : Bool
  define_INCLUDE_UART : Bool
  deriving DecidableEq, Repr

/-- `SMALLFOOTPRINT` is defined exactly on the ATmega328 targets. -/
def BuildConfig.SMALLFOOTPRINT (c : BuildConfig) : Bool := c.avr_atmega328

/-- `INCLUDE_UART` after the auto-detect block: the small-footprint branch
undefines it. -/
def BuildConfig.INCLUDE_UART (c : BuildConfig) : Bool :=
  c.define_INCLUDE_UART && !c.SMALLFOOTPRINT

/-- `INCLUDE_I2C` is never undefined by the header. -/
def BuildConfig.INCLUDE_I2C (c : BuildConfig) : Bool := c.define_INCLUDE_I2C

/-- The receive buffer capacity `MAXRECVBUFLENGTH`. -/
def MAXRECVBUFLENGTH (c : BuildConfig) : Nat :=
  if c.SMALLFOOTPRINT then 100 else 255

/-- Capacity of `_Send_BUF`. -/
def SEND_BUF_SIZE : Nat := 10

/-- Number of entries of the `Reported` cache array. -/
def REPORTED_SIZE : Nat := 11

/-- Largest value of a `uint8_t` counter such as `_Receive_BUF_Length`. -/
def UINT8_MAX : Nat := 255

/-! ## Serial command codes -/

def SER_START_MEASUREMENT : Nat := 0x00
def SER_STOP_MEASUREMENT : Nat := 0x01
def SER_READ_MEASURED_VALUE : Nat := 0x03
def SER_START_FAN_CLEANING : Nat := 0x56
def SER_RESET : Nat := 0xD3

def SER_READ_DEVICE_INFO : Nat := 0xD0
def SER_READ_DEVICE_PRODUCT_NAME : Nat := 0xF1
def SER_READ_DEVICE_ARTICLE_CODE : Nat := 0xF2
def SER_READ_DEVICE_SERIAL_NUMBER : Nat := 0xF3

def SER_AUTO_CLEANING_INTERVAL : Nat := 0x80
def SER_READ_AUTO_CLEANING : Nat := 0x81
def SER_WRITE_AUTO_CLEANING : Nat := 0x82

def SHDLC_IND : Nat := 0x7e
def TIME_OUT : Nat := 5000
def RX_DELAY_MS : Nat := 200

/-! ## I2C opcodes -/

def I2C_START_MEASUREMENT : Nat := 0x0010
def I2C_STOP_MEASUREMENT : Nat := 0x0104
def I2C_READ_DATA_RDY_FLAG : Nat := 0x0202
def I2C_READ_MEASURED_VALUE : Nat := 0x0300
def I2C_AUTO_CLEANING_INTERVAL : Nat := 0x8004
def I2C_SET_AUTO_CLEANING_INTERVAL : Nat := 0x8005
def I2C_START_FAN_CLEANING : Nat := 0x5607
def I2C_READ_ARTICLE_CODE : Nat := 0xD025
def I2C_READ_SERIAL_NUMBER : Nat := 0xD033
def I2C_RESET : Nat := 0xD304

def SPS30_ADDRESS : Nat := 0x69

/-- The ten I2C opcodes, in the order of their definition. -/
def i2cOpcodes : List Nat :=
  [I2C_START_MEASUREMENT, I2C_STOP_MEASUREMENT, I2C_READ_DATA_RDY_FLAG,
   I2C_READ_MEASURED_VALUE, I2C_AUTO_CLEANING_INTERVAL, I2C_SET_AUTO_CLEANING_INTERVAL,
   I2C_START_FAN_CLEANING, I2C_READ_ARTICLE_CODE, I2C_READ_SERIAL_NUMBER, I2C_RESET]

/-- High byte of a 16-bit opcode. -/
def highByte (op : Nat) : Nat := (op / 256) % 256

/-- The logical commands that have both a serial command byte and an I2C
opcode in the header. -/
inductive Command where
  | startMeasurement | stopMeasurement | readMeasuredValue | startFanCleaning
  | reset | readAutoCleaning | writeAutoCleaning | readArticleCode
  | readSerialNumber
  deriving DecidableEq, Repr

def Command.all : List Command :=
  [.startMeasurement, .stopMeasurement, .readMeasuredValue, .startFanCleaning,
   .reset, .readAutoCleaning, .writeAutoCleaning, .readArticleCode, .readSerialNumber]

/-- The command byte that goes on the serial wire: the auto-clean read and
write share the generic auto-clean request, the device strings share the
generic device request. -/
def Command.serialByte : Command → Nat
  | .startMeasurement => SER_START_MEASUREMENT
  | .stopMeasurement => SER_STOP_MEASUREMENT
  | .readMeasuredValue => SER_READ_MEASURED_VALUE
  | .startFanCleaning => SER_START_FAN_CLEANING
  | .reset => SER_RESET
  | .readAutoCleaning => SER_AUTO_CLEANING_INTERVAL
  | .writeAutoCleaning => SER_AUTO_CLEANING_INTERVAL
  | .readArticleCode => SER_READ_DEVICE_INFO
  | .readSerialNumber => SER_READ_DEVICE_INFO

/-- The I2C opcode of a command. -/
def Command.i2cOpcode : Command → Nat
  | .startMeasurement => I2C_START_MEASUREMENT
  | .stopMeasurement => I2C_STOP_MEASUREMENT
  | .readMeasuredValue => I2C_READ_MEASURED_VALUE
  | .startFanCleaning => I2C_START_FAN_CLEANING
  | .reset => I2C_RESET
  | .readAutoCleaning => I2C_AUTO_CLEANING_INTERVAL
  | .writeAutoCleaning => I2C_SET_AUTO_CLEANING_INTERVAL
  | .readArticleCode => I2C_READ_ARTICLE_CODE
  | .readSerialNumber => I2C_READ_SERIAL_NUMBER

/-! ## Device information kinds -/

/-- The three device strings. -/
inductive InfoKind where
  | serialNumber | articleCode | productName
  deriving DecidableEq, Repr

def InfoKind.all : List InfoKind := [.serialNumber, .articleCode, .productName]

/-- The `SER_READ_DEVICE_*` code of a device string. -/
def InfoKind.serialCode : InfoKind → Option Nat
  | .serialNumber => some SER_READ_DEVICE_SERIAL_NUMBER
  | .articleCode => some SER_READ_DEVICE_ARTICLE_CODE
  | .productName => some SER_READ_DEVICE_PRODUCT_NAME

/-- The `I2C_READ_*` opcode of a device string.  The header defines
`I2C_READ_ARTICLE_CODE` and `I2C_READ_SERIAL_NUMBER` and nothing for the
product name. -/
def InfoKind.i2cOpcode : InfoKind → Option Nat
  | .serialNumber => some I2C_READ_SERIAL_NUMBER
  | .articleCode => some I2C_READ_ARTICLE_CODE
  | .productName => none

/-! ## Inline members of `class SPS30`

Each takes the out-of-line member it forwards to as its first argument; the
driver object is the state `σ` threaded through. -/

section InlineMembers

variable {σ : Type}

def reset (Instruct : Nat → σ → Bool × σ) (s : σ) : Bool × σ := Instruct SER_RESET s
def start (Instruct : Nat → σ → Bool × σ) (s : σ) : Bool × σ := Instruct SER_START_MEASUREMENT s
def stop (Instruct : Nat → σ → Bool × σ) (s : σ) : Bool × σ := Instruct SER_START_MEASUREMENT s
def clean (Instruct : Nat → σ → Bool × σ) (s : σ) : Bool × σ := Instruct SER_START_FAN_CLEANING s

variable {β ρ : Type}

def GetSerialNumber (Get_Device_info : Nat → β → Nat → ρ) (ser : β) (len : Nat) : ρ :=
  Get_Device_info SER_READ_DEVICE_SERIAL_NUMBER ser len
def GetArticleCode (Get_Device_info : Nat → β → Nat → ρ) (ser : β) (len : Nat) : ρ :=
  Get_Device_info SER_READ_DEVICE_ARTICLE_CODE ser len
def GetProductName (Get_Device_info : Nat → β → Nat → ρ) (ser : β) (len : Nat) : ρ :=
  Get_Device_info SER_READ_DEVICE_PRODUCT_NAME ser len

def GetMassPM1 (Get_Single_Value : Nat → ρ) : ρ := Get_Single_Value v_MassPM1
def GetMassPM2 (Get_Single_Value : Nat → ρ) : ρ := Get_Single_Value v_MassPM2
def GetMassPM4 (Get_Single_Value : Nat → ρ) : ρ := Get_Single_Value v_MassPM4
def GetMassPM10 (Get_Single_Value : Nat → ρ) : ρ := Get_Single_Value v_MassPM10
def GetNumPM0 (Get_Single_Value : Nat → ρ) : ρ := Get_Single_Value v_NumPM0
def GetNumPM1 (Get_Single_Value : Nat → ρ) : ρ := Get_Single_Value v_NumPM1
def GetNumPM2 (Get_Single_Value : Nat → ρ) : ρ := Get_Single_Value v_NumPM2
def GetNumPM4 (Get_Single_Value : Nat → ρ) : ρ := Get_Single_Value v_NumPM4
def GetNumPM10 (Get_Single_Value : Nat → ρ) : ρ := Get_Single_Value v_NumPM10
def GetPartSize (Get_Single_Value : Nat → ρ) : ρ := Get_Single_Value v_PartSize

end InlineMembers

/-- The accessor named after a field. -/
def Field.accessor {ρ : Type} : Field → (Nat → ρ) → ρ
  | .MassPM1 => GetMassPM1
  | .MassPM2 => GetMassPM2
  | .MassPM4 => GetMassPM4
  | .MassPM10 => GetMassPM10
  | .NumPM0 => GetNumPM0
  | .NumPM1 => GetNumPM1
  | .NumPM2 => GetNumPM2
  | .NumPM4 => GetNumPM4
  | .NumPM10 => GetNumPM10
  | .PartSize => GetPartSize

/-- The accessor that fetches a device string. -/
def InfoKind.accessor {β ρ : Type} : InfoKind → (Nat → β → Nat → ρ) → β → Nat → ρ
  | .serialNumber => GetSerialNumber
  | .articleCode => GetArticleCode
  | .productName => GetProductName

/-- An `Instruct` that only records the instruction code it is handed, used
to observe which code an inline member passes on. -/
def recordInstruct (type : Nat) (log : List Nat) : Bool × List Nat := (true, log ++ [type])

/-! ## The serial frame codec

The byte values the header does not define (the escape byte, the device
address on the serial link, the sub-type byte of the auto-clean write) are
arguments of the definitions below. -/

/-- Modelled from the spec: the reserved bytes of the byte-stuffing rule,
which the header leaves to the missing `ByteStuff`: the sentinel, the escape
byte `esc`, 0x11 and 0x13. -/
def isReserved (esc b : Nat) : Bool :=
  b == SHDLC_IND || b == esc || b == 0x11 || b == 0x13

/-- Modelled from the spec: the missing `ByteStuff` on one byte: a reserved
byte becomes the escape byte followed by the byte XOR 0x20, any other byte
is left alone. -/
def ByteStuff (esc b : Nat) : List Nat :=
  if isReserved esc b then [esc, b ^^^ 0x20] else [b]

/-- Modelled from the spec: `Stuff`, the missing byte-stuffing pass over a
byte sequence (`ByteStuff` on every byte in turn). -/
def Stuff (esc : Nat) : List Nat → List Nat
  | [] => []
  | b :: rest => ByteStuff esc b ++ Stuff esc rest

/-- Modelled from the spec: the missing `ByteUnStuff`, which restores the
byte that follows an escape byte by XOR with 0x20. -/
def ByteUnStuff (b : Nat) : Nat := b ^^^ 0x20

/-- Modelled from the spec: `Unstuff`, the missing reversal of byte-stuffing:
an escape byte and the byte after it become one restored byte, any other
byte is kept.  An escape byte with nothing after it is kept as it is. -/
def Unstuff (esc : Nat) : List Nat → List Nat
  | [] => []
  | b :: rest =>
    if b = esc then
      match rest with
      | [] => [b]
      | c :: rest2 => ByteUnStuff c :: Unstuff esc rest2
    else b :: Unstuff esc rest

/-- Modelled from the spec: the missing `SHDLC_calc_CRC`, the one's
complement of the sum modulo 256 of the bytes from address through data. -/
def SHDLC_calc_CRC (bytes : List Nat) : Nat := 255 - bytes.sum % 256

/-- Modelled from the spec: the wire form of a frame, missing with the
codec: the opening sentinel, the byte-stuffed `ADDR..CRC` range, the closing
sentinel. -/
def wireFrame (esc : Nat) (content : List Nat) (crc : Nat) : List Nat :=
  SHDLC_IND :: (Stuff esc (content ++ [crc]) ++ [SHDLC_IND])

/-- The four bytes of a 32-bit parameter, most significant first. -/
def paramBytes (p : Nat) : List Nat :=
  [(p / 2 ^ 24) % 256, (p / 2 ^ 16) % 256, (p / 2 ^ 8) % 256, p % 256]

/-- The logical commands of the serial transport. -/
inductive SerialCommand where
  | start | stop | readValues | clean | reset
  | deviceInfo (kind : InfoKind)
  | readAutoClean
  | writeAutoClean (interval : Nat)
  deriving DecidableEq, Repr

/-- The command byte of a logical serial command, from the `SER_` codes. -/
def SerialCommand.cmdByte : SerialCommand → Nat
  | .start => SER_START_MEASUREMENT
  | .stop => SER_STOP_MEASUREMENT
  | .readValues => SER_READ_MEASURED_VALUE
  | .clean => SER_START_FAN_CLEANING
  | .reset => SER_RESET
  | .deviceInfo _ => SER_READ_DEVICE_INFO
  | .readAutoClean => SER_AUTO_CLEANING_INTERVAL
  | .writeAutoClean _ => SER_AUTO_CLEANING_INTERVAL

/-- Modelled from the spec: the data field built by the missing
`SHDLC_fill_buffer`: empty for the parameterless commands, one sub-type byte
and the four parameter bytes for the auto-clean-interval write. -/
def SerialCommand.data (sub : Nat) : SerialCommand → List Nat
  | .writeAutoClean interval => sub :: paramBytes (interval % 2 ^ 32)
  | _ => []

/-- Modelled from the spec: the missing `SHDLC_fill_buffer`, the outgoing
frame `[START][ADDR][CMD][LEN][DATA...][CRC][STOP]` with `ADDR..CRC`
byte-stuffed; the result is what is stored in `_Send_BUF`. -/
def SHDLC_fill_buffer (esc addr sub : Nat) (c : SerialCommand) : List Nat :=
  let content := addr :: c.cmdByte :: (c.data sub).length :: c.data sub
  wireFrame esc content (SHDLC_calc_CRC content)

/-- What `Decode` hands back: the fields of a reply frame. -/
structure ParsedFrame where
  addr : Nat
  cmd : Nat
  state : Nat
  data : List Nat
  deriving DecidableEq, Repr

deriving instance DecidableEq for Except

/-- Modelled from the spec: the first step of the missing reply parser,
which strips the opening and the closing sentinel; a byte sequence without
them is not a frame. -/
def stripSentinels : List Nat → Option (List Nat)
  | [] => none
  | s :: rest =>
    if s = SHDLC_IND ∧ rest.getLast? = some SHDLC_IND then some rest.dropLast else none

/-- Modelled from the spec: `Decode`, the missing reply parser.  It strips
the sentinels, reverses the byte-stuffing, splits
`[ADDR][CMD][STATE][LEN][DATA...][CRC]`, checks the declared length against
the data size, recomputes the CRC over `ADDR..DATA` and compares (a
malformed frame or a mismatch is the protocol error), and last turns a
nonzero state byte into the failure with that code. -/
def Decode (esc : Nat) (raw : List Nat) : Except Nat ParsedFrame :=
  match stripSentinels raw with
  | none => .error ERR_PROTOCOL
  | some stuffed =>
    match Unstuff esc stuffed with
    | addr :: cmd :: state :: len :: tail =>
      match tail.getLast? with
      | none => .error ERR_PROTOCOL
      | some crc =>
        let data := tail.dropLast
        if data.length ≠ len then .error ERR_PROTOCOL
        else if SHDLC_calc_CRC (addr :: cmd :: state :: len :: data) ≠ crc then
          .error ERR_PROTOCOL
        else if state ≠ ERR_OK then .error state
        else .ok ⟨addr, cmd, state, data⟩
    | _ => .error ERR_PROTOCOL

/-- Flip bit `k` of the byte at position `i` of a byte sequence. -/
def flipBit : List Nat → Nat → Nat → List Nat
  | [], _, _ => []
  | b :: rest, 0, k => (b ^^^ 2 ^ k) :: rest
  | b :: rest, i + 1, k => b :: flipBit rest i k

/-- Size in bytes of the measurement payload: one 4-byte value per field of
`sps_values`. -/
def MEASUREMENT_PAYLOAD : Nat := 4 * Field.all.length

/-- Modelled from the spec: the size of an I2C reply carrying `n` payload
bytes, read by the missing `I2C_ReadToBuffer`: one group of 2 data bytes and
1 CRC byte per 16-bit word. -/
def I2C_replyLength (n : Nat) : Nat := (n / 2) * 3

/-- The unstuffed `ADDR..DATA` range of a well-formed reply frame: the
length byte is the size of the data field. -/
def replyContent (addr cmd state : Nat) (data : List Nat) : List Nat :=
  addr :: cmd :: state :: data.length :: data

/-- A well-formed reply frame on the wire: its content, its CRC, stuffed
between the sentinels. -/
def replyFrame (esc addr cmd state : Nat) (data : List Nat) : List Nat :=
  wireFrame esc (replyContent addr cmd state data)
    (SHDLC_calc_CRC (replyContent addr cmd state data))

end SPS30

namespace SPS30

/-! ## The inline instructions -/

/-- C1: the code of `stop()` hands `Instruct` the start-measurement code:
for every `Instruct` and every driver state `stop` is the call
`Instruct(SER_START_MEASUREMENT)`, the same call as `start()`, and on the
recording `Instruct` it logs 0x00 where a stop instruction would log
`SER_STOP_MEASUREMENT` (0x01), a different code. -/
theorem stop_passes_start_code :
    (∀ (σ : Type) (Instruct : Nat → σ → Bool × σ) (s : σ),
        stop Instruct s = Instruct SER_START_MEASUREMENT s ∧
        stop Instruct s = start Instruct s) ∧
    stop recordInstruct [] = (true, [0x00]) ∧
    recordInstruct SER_STOP_MEASUREMENT [] = (true, [0x01]) ∧
    stop recordInstruct [] ≠ recordInstruct SER_STOP_MEASUREMENT [] ∧
    SER_START_MEASUREMENT ≠ SER_STOP_MEASUREMENT := by
  refine ⟨fun σ Instruct s => ⟨rfl, rfl⟩, by decide, by decide, by decide, by decide⟩

/-! ## Error codes -/

/-- C2: the nine error codes have the documented values, each fits in one
byte, they are pairwise distinct, a code is zero exactly when it is
`ERR_OK`, and neither driver-injected code (timeout, protocol) is among the
device-reported ones. -/
theorem errorCodes_documented :
    errorCodes = [0x00, 0x01, 0x02, 0x03, 0x04, 0x28, 0x43, 0x50, 0x51] ∧
    [ERR_OK, ERR_DATALENGTH, ERR_UNKNOWNCMD, ERR_ACCESSRIGHT, ERR_PARAMETER] = [0, 1, 2, 3, 4] ∧
    [ERR_OUTOFRANGE, ERR_CMDSTATE, ERR_TIMEOUT, ERR_PROTOCOL] = [0x28, 0x43, 0x50, 0x51] ∧
    errorCodes.all (fun c => decide (c < 256)) = true ∧
    errorCodes.Pairwise (fun a b => a ≠ b) ∧
    errorCodes.filter (fun c => c == 0) = [ERR_OK] ∧
    errorCodes.all (fun c => decide (c = 0 ↔ c = ERR_OK)) = true ∧
    driverCodes.all (fun c => !deviceCodes.contains c) = true := by
  refine ⟨by decide, by decide, by decide, by decide, by decide, by decide, by decide, by decide⟩

/-! ## Single-value identifiers -/

/-- C3: the identifiers `v_MassPM1 .. v_PartSize` are the numbers 1..10 in
the field order of `sps_values`, pairwise distinct; the identifier of a
field is its position in the record (counted from 1), so identifier `k`
selects the `k`-th member; and every accessor `GetMassPM1 .. GetPartSize`
is the call of `Get_Single_Value` with the identifier of the field it is
named after. -/
theorem identifiers_follow_field_order :
    Field.all.map Field.ident = [1, 2, 3, 4, 5, 6, 7, 8, 9, 10] ∧
    (Field.all.map Field.ident).Nodup ∧
    (∀ f : Field, Field.all.indexOf f + 1 = f.ident) ∧
    (∀ (α : Type) (v : sps_values α) (f : Field),
        v.toList.get? (f.ident - 1) = some (f.get v)) ∧
    (∀ (ρ : Type) (Get_Single_Value : Nat → ρ) (f : Field),
        f.accessor Get_Single_Value = Get_Single_Value f.ident) ∧
    (∀ (ρ : Type) (g : Nat → ρ),
        [GetMassPM1 g, GetMassPM2 g, GetMassPM4 g, GetMassPM10 g, GetNumPM0 g, GetNumPM1 g,
          GetNumPM2 g, GetNumPM4 g, GetNumPM10 g, GetPartSize g]
        = [g 1, g 2, g 3, g 4, g 5, g 6, g 7, g 8, g 9, g 10]) := by
  refine ⟨by decide, by decide, ?_, ?_, ?_, fun ρ g => rfl⟩
  · intro f; cases f <;> decide
  · intro α v f; cases f <;> rfl
  · intro ρ g f; cases f <;> rfl

/-- C10: every single-value identifier is a valid index of the 11-entry
`Reported` array: the identifier of each field, which is what the accessor
of that field hands to `Get_Single_Value`, is at least 1 and below 11. -/
theorem identifiers_index_Reported :
    REPORTED_SIZE = 11 ∧
    (∀ f : Field, 1 ≤ f.ident ∧ f.ident < REPORTED_SIZE) ∧
    (∀ f : Field, f.accessor (fun id => decide (id < REPORTED_SIZE)) = true) := by
  refine ⟨rfl, ?_, ?_⟩
  · intro f; cases f <;> decide
  · intro f; cases f <;> decide

/-! ## Device information -/

/-- C4, as the header has it: the three accessors hand `Get_Device_info`
three pairwise distinct kind codes together with the caller's buffer and
length unchanged; a serial code is defined for each of the three kinds; an
I2C opcode is defined for the serial number and the article code, and none
for the product name. -/
theorem device_info_kinds :
    (∀ (β ρ : Type) (Get_Device_info : Nat → β → Nat → ρ) (ser : β) (len : Nat),
        GetSerialNumber Get_Device_info ser len
          = Get_Device_info SER_READ_DEVICE_SERIAL_NUMBER ser len ∧
        GetArticleCode Get_Device_info ser len
          = Get_Device_info SER_READ_DEVICE_ARTICLE_CODE ser len ∧
        GetProductName Get_Device_info ser len
          = Get_Device_info SER_READ_DEVICE_PRODUCT_NAME ser len) ∧
    [SER_READ_DEVICE_SERIAL_NUMBER, SER_READ_DEVICE_ARTICLE_CODE,
      SER_READ_DEVICE_PRODUCT_NAME].Nodup ∧
    (∀ k : InfoKind, k.serialCode.isSome = true) ∧
    InfoKind.serialNumber.i2cOpcode = some I2C_READ_SERIAL_NUMBER ∧
    InfoKind.articleCode.i2cOpcode = some I2C_READ_ARTICLE_CODE ∧
    InfoKind.productName.i2cOpcode = none := by
  refine ⟨fun β ρ g ser len => ⟨rfl, rfl, rfl⟩, by decide, ?_, rfl, rfl, rfl⟩
  intro k; cases k <;> rfl

/-- C4 as written fails: the product name has no I2C opcode, so it is not
true that every one of the three kinds has one. -/
theorem product_name_has_no_i2c_opcode :
    InfoKind.productName.i2cOpcode = none ∧
    ¬ (∀ k : InfoKind, k.i2cOpcode.isSome = true) := by
  refine ⟨rfl, ?_⟩
  intro h
  exact absurd (h .productName) (by decide)

/-! ## Serial command bytes and I2C opcodes -/

/-- C9: for each of the nine commands defined on both transports the high
byte of the I2C opcode is the serial command byte (0x00, 0x01, 0x03, 0x56,
0xD3, 0x80, 0x80, 0xD0, 0xD0 in turn), and the ten I2C opcodes are pairwise
distinct numbers below 2^16. -/
theorem i2c_high_byte_is_serial_command :
    (∀ c : Command, highByte c.i2cOpcode = c.serialByte) ∧
    Command.all.map Command.serialByte
      = [0x00, 0x01, 0x03, 0x56, 0xD3, 0x80, 0x80, 0xD0, 0xD0] ∧
    (∀ c : Command, c ∈ Command.all ∧ c.i2cOpcode ∈ i2cOpcodes) ∧
    i2cOpcodes.length = 10 ∧
    i2cOpcodes.Nodup ∧
    i2cOpcodes.all (fun op => decide (op < 2 ^ 16)) = true := by
  refine ⟨?_, by decide, ?_, by decide, by decide, by decide⟩
  · intro c; cases c <;> decide
  · intro c; cases c <;> decide

/-! ## Byte-stuffing -/

theorem xor_0x20_twice (b : Nat) : (b ^^^ 0x20) ^^^ 0x20 = b := by
  rw [Nat.xor_assoc, Nat.xor_self, Nat.xor_zero]

theorem ne_esc_of_not_reserved {esc b : Nat} (h : isReserved esc b = false) : b ≠ esc := by
  intro hb
  subst hb
  simp [isReserved] at h

theorem Unstuff_cons_ne {esc b : Nat} (rest : List Nat) (h : b ≠ esc) :
    Unstuff esc (b :: rest) = b :: Unstuff esc rest := by
  cases rest <;> simp [Unstuff, h]

/-- C5: byte-stuffing round trip.  For every escape byte and every byte
sequence, `Unstuff` applied to `Stuff` of the sequence gives the sequence
back. -/
theorem Unstuff_Stuff (esc : Nat) (seq : List Nat) : Unstuff esc (Stuff esc seq) = seq := by
  induction seq with
  | nil => rfl
  | cons b rest ih =>
    cases hres : isReserved esc b with
    | true =>
      simp only [Stuff, ByteStuff, hres, if_true, List.cons_append, List.nil_append, Unstuff,
        ByteUnStuff, ih, xor_0x20_twice]
    | false =>
      have hne : b ≠ esc := ne_esc_of_not_reserved hres
      simp only [Stuff, ByteStuff, hres, Bool.false_eq_true, if_false, List.cons_append,
        List.nil_append]
      rw [Unstuff_cons_ne _ hne, ih]

theorem length_ByteStuff (esc b : Nat) :
    1 ≤ (ByteStuff esc b).length ∧ (ByteStuff esc b).length ≤ 2 := by
  unfold ByteStuff
  split <;> simp

theorem length_Stuff (esc : Nat) (seq : List Nat) :
    seq.length ≤ (Stuff esc seq).length ∧ (Stuff esc seq).length ≤ 2 * seq.length := by
  induction seq with
  | nil => simp [Stuff]
  | cons b rest ih =>
    have hb := length_ByteStuff esc b
    simp only [Stuff, List.length_append, List.length_cons]
    omega

theorem length_wireFrame (esc : Nat) (content : List Nat) (crc : Nat) :
    content.length + 3 ≤ (wireFrame esc content crc).length ∧
    (wireFrame esc content crc).length ≤ 2 + 2 * (content.length + 1) := by
  have h := length_Stuff esc (content ++ [crc])
  simp only [List.length_append, List.length_cons, List.length_nil] at h
  simp only [wireFrame, List.length_append, List.length_cons, List.length_nil]
  omega

/-! ## The reply parser -/

theorem Unstuff_esc_cons (esc c : Nat) (rest : List Nat) :
    Unstuff esc (esc :: c :: rest) = (c ^^^ 0x20) :: Unstuff esc rest := by
  simp [Unstuff, ByteUnStuff]

/-- Unstuffing a stuffed sequence followed by anything gives the sequence
back and goes on with what follows. -/
theorem Unstuff_Stuff_append (esc : Nat) (seq tail : List Nat) :
    Unstuff esc (Stuff esc seq ++ tail) = seq ++ Unstuff esc tail := by
  induction seq with
  | nil => rfl
  | cons b rest ih =>
    cases hres : isReserved esc b with
    | true =>
      simp only [Stuff, ByteStuff, hres, if_true, List.cons_append, List.nil_append]
      rw [Unstuff_esc_cons, ih, xor_0x20_twice]
    | false =>
      simp only [Stuff, ByteStuff, hres, Bool.false_eq_true, if_false, List.cons_append,
        List.nil_append]
      rw [Unstuff_cons_ne _ (ne_esc_of_not_reserved hres), ih]

theorem stripSentinels_between (body : List Nat) :
    stripSentinels (SHDLC_IND :: (body ++ [SHDLC_IND])) = some body := by
  simp [stripSentinels]

/-- What `Decode` does once the sentinels are stripped and the stuffing is
reversed: the length check, then the CRC check, then the state byte. -/
theorem Decode_of_unstuffed (esc addr cmd state len crc : Nat) (data raw stuffed : List Nat)
    (hstrip : stripSentinels raw = some stuffed)
    (hun : Unstuff esc stuffed = addr :: cmd :: state :: len :: (data ++ [crc])) :
    Decode esc raw =
      if data.length ≠ len then .error ERR_PROTOCOL
      else if SHDLC_calc_CRC (addr :: cmd :: state :: len :: data) ≠ crc then
        .error ERR_PROTOCOL
      else if state ≠ ERR_OK then .error state
      else .ok ⟨addr, cmd, state, data⟩ := by
  simp [Decode, hstrip, hun, List.getLast?_append]

theorem Decode_wireFrame (esc addr cmd state len crc : Nat) (data : List Nat) :
    Decode esc (wireFrame esc (addr :: cmd :: state :: len :: data) crc) =
      if data.length ≠ len then .error ERR_PROTOCOL
      else if SHDLC_calc_CRC (addr :: cmd :: state :: len :: data) ≠ crc then
        .error ERR_PROTOCOL
      else if state ≠ ERR_OK then .error state
      else .ok ⟨addr, cmd, state, data⟩ := by
  apply Decode_of_unstuffed esc addr cmd state len crc data _ _ (stripSentinels_between _)
  have h := Unstuff_Stuff_append esc (addr :: cmd :: state :: len :: data ++ [crc]) []
  simpa [Unstuff] using h

/-- A well-formed reply frame decodes: to its fields when the state byte is
zero, to the failure with the state byte as code otherwise. -/
theorem Decode_replyFrame (esc addr cmd state : Nat) (data : List Nat) :
    Decode esc (replyFrame esc addr cmd state data) =
      if state ≠ ERR_OK then .error state else .ok ⟨addr, cmd, state, data⟩ := by
  simp [replyFrame, replyContent, Decode_wireFrame]

theorem length_flipBit (xs : List Nat) (i k : Nat) : (flipBit xs i k).length = xs.length := by
  induction xs generalizing i with
  | nil => rfl
  | cons b rest ih =>
    cases i with
    | zero => rfl
    | succ j => simp [flipBit, ih]

theorem flip_byte_ne {b k : Nat} : b ^^^ 2 ^ k ≠ b := by
  intro h
  have h2 : b ^^^ (b ^^^ 2 ^ k) = b ^^^ b := by rw [h]
  rw [← Nat.xor_assoc, Nat.xor_self, Nat.zero_xor] at h2
  have hpos : 0 < 2 ^ k := Nat.pos_pow_of_pos k (by decide)
  omega

theorem flip_byte_lt {b k : Nat} (hb : b < 256) (hk : k < 8) : b ^^^ 2 ^ k < 256 := by
  have h1 : b < 2 ^ 8 := by simpa using hb
  have h2 : 2 ^ k < 2 ^ 8 := Nat.pow_lt_pow_right (by decide) hk
  have := Nat.xor_lt_two_pow h1 h2
  simpa using this

/-- Flipping one bit of one byte changes the byte sum modulo 256. -/
theorem sum_flipBit_ne (xs : List Nat) (i k : Nat) (hbytes : ∀ b ∈ xs, b < 256)
    (hi : i < xs.length) (hk : k < 8) :
    (flipBit xs i k).sum % 256 ≠ xs.sum % 256 := by
  induction xs generalizing i with
  | nil => simp at hi
  | cons b rest ih =>
    cases i with
    | zero =>
      have hb : b < 256 := hbytes b (by simp)
      have h1 := flip_byte_lt hb hk
      have h2 : b ^^^ 2 ^ k ≠ b := flip_byte_ne
      simp only [flipBit, List.sum_cons]
      omega
    | succ j =>
      have hrest : ∀ c ∈ rest, c < 256 := fun c hc => hbytes c (by simp [hc])
      have hj : j < rest.length := by simpa using hi
      have := ih j hrest hj
      simp only [flipBit, List.sum_cons]
      omega

theorem SHDLC_calc_CRC_flipBit_ne (xs : List Nat) (i k : Nat) (hbytes : ∀ b ∈ xs, b < 256)
    (hi : i < xs.length) (hk : k < 8) :
    SHDLC_calc_CRC (flipBit xs i k) ≠ SHDLC_calc_CRC xs := by
  have h := sum_flipBit_ne xs i k hbytes hi hk
  unfold SHDLC_calc_CRC
  omega

/-- Whatever reaches `Decode`, if its unstuffed form is the `ADDR..DATA`
range of a well-formed reply with one bit of one byte flipped, followed by
the CRC of the original, the result is the protocol error. -/
theorem Decode_of_flipped_content (esc addr cmd state : Nat) (data raw stuffed : List Nat)
    (i k : Nat)
    (hbytes : ∀ b ∈ replyContent addr cmd state data, b < 256)
    (hi : i < (replyContent addr cmd state data).length) (hk : k < 8)
    (hstrip : stripSentinels raw = some stuffed)
    (hun : Unstuff esc stuffed = flipBit (replyContent addr cmd state data) i k
      ++ [SHDLC_calc_CRC (replyContent addr cmd state data)]) :
    Decode esc raw = .error ERR_PROTOCOL := by
  have hcrc := SHDLC_calc_CRC_flipBit_ne _ i k hbytes hi hk
  have hlen := length_flipBit (replyContent addr cmd state data) i k
  generalize hf : flipBit (replyContent addr cmd state data) i k = flipped at hcrc hlen hun
  match flipped, hlen with
  | a :: c :: s :: l :: d, _ =>
    rw [Decode_of_unstuffed esc a c s l _ d raw stuffed hstrip hun, if_pos hcrc, ite_self]
  | [], h => simp [replyContent] at h
  | [_], h => simp [replyContent] at h
  | [_, _], h => simp [replyContent] at h
  | [_, _, _], h => simp [replyContent] at h

/-- A bit flipped in the unstuffed `ADDR..DATA` range before the frame is
stuffed (the CRC kept) is always detected. -/
theorem Decode_rejects_content_flip (esc addr cmd state : Nat) (data : List Nat) (i k : Nat)
    (hbytes : ∀ b ∈ replyContent addr cmd state data, b < 256)
    (hi : i < (replyContent addr cmd state data).length) (hk : k < 8) :
    Decode esc (wireFrame esc (flipBit (replyContent addr cmd state data) i k)
        (SHDLC_calc_CRC (replyContent addr cmd state data)))
      = .error ERR_PROTOCOL := by
  apply Decode_of_flipped_content esc addr cmd state data _ _ i k hbytes hi hk
    (stripSentinels_between _)
  have h := Unstuff_Stuff_append esc (flipBit (replyContent addr cmd state data) i k
    ++ [SHDLC_calc_CRC (replyContent addr cmd state data)]) []
  simpa [Unstuff] using h

theorem length_paramBytes (p : Nat) : (paramBytes p).length = 4 := rfl

/-- The frame of a command without data occupies between 6 and 10 bytes,
so it fits `_Send_BUF`. -/
theorem SHDLC_fill_buffer_no_data_fits (esc addr sub : Nat) (c : SerialCommand)
    (hc : c.data sub = []) :
    6 ≤ (SHDLC_fill_buffer esc addr sub c).length ∧
    (SHDLC_fill_buffer esc addr sub c).length ≤ SEND_BUF_SIZE := by
  have h := length_wireFrame esc [addr, c.cmdByte, 0] (SHDLC_calc_CRC [addr, c.cmdByte, 0])
  simp only [SHDLC_fill_buffer, hc, List.length_nil, SEND_BUF_SIZE]
  simp only [List.length_cons, List.length_nil] at h
  omega

/-- C7 on the auto-clean-interval write: whatever the escape byte, the
address, the sub-type byte and the interval, the frame built for
`_Send_BUF` has its length byte 5 and is between 11 and 20 bytes long, more
than the 10 bytes `_Send_BUF` holds; for the interval 0 it is the 11-byte
frame `7E 00 80 05 00 00 00 00 00 7A 7E`. -/
theorem SHDLC_fill_buffer_write_exceeds_Send_BUF :
    (∀ esc addr sub interval : Nat,
        (SerialCommand.data sub (.writeAutoClean interval)).length = 5 ∧
        SEND_BUF_SIZE < (SHDLC_fill_buffer esc addr sub (.writeAutoClean interval)).length ∧
        11 ≤ (SHDLC_fill_buffer esc addr sub (.writeAutoClean interval)).length ∧
        (SHDLC_fill_buffer esc addr sub (.writeAutoClean interval)).length ≤ 20) ∧
    SHDLC_fill_buffer 0x7D 0 0 (.writeAutoClean 0)
      = [0x7E, 0x00, 0x80, 0x05, 0x00, 0x00, 0x00, 0x00, 0x00, 0x7A, 0x7E] ∧
    (SHDLC_fill_buffer 0x7D 0 0 (.writeAutoClean 0)).length = 11 ∧
    SEND_BUF_SIZE = 10 := by
  refine ⟨?_, by decide, by decide, rfl⟩
  intro esc addr sub interval
  have h := length_wireFrame esc
    (addr :: SER_AUTO_CLEANING_INTERVAL :: (4 + 1) :: sub :: paramBytes (interval % 2 ^ 32))
    (SHDLC_calc_CRC
      (addr :: SER_AUTO_CLEANING_INTERVAL :: (4 + 1) :: sub :: paramBytes (interval % 2 ^ 32)))
  simp only [List.length_cons, length_paramBytes] at h
  simp only [SHDLC_fill_buffer, SerialCommand.data, SerialCommand.cmdByte, List.length_cons,
    length_paramBytes, SEND_BUF_SIZE]
  norm_num at h ⊢
  omega

/-- C8: in every build configuration the reply that carries the 40-byte
measurement payload fits the receive buffer and an 8-bit length counter.
The I2C reply is 60 bytes, at most `MAXRECVBUFLENGTH`, which is 100 when
`SMALLFOOTPRINT` is defined (and then the serial transport is compiled out)
and never above 255.  Whenever the serial transport is compiled in,
`MAXRECVBUFLENGTH` is 255, and a serial reply frame with 40 data bytes is at
most 2 + 2 * 45 = 92 bytes on the wire whatever bytes get stuffed. -/
theorem measurement_reply_fits_Receive_BUF (c : BuildConfig) :
    MEASUREMENT_PAYLOAD = 40 ∧
    I2C_replyLength MEASUREMENT_PAYLOAD = 60 ∧
    I2C_replyLength MEASUREMENT_PAYLOAD ≤ MAXRECVBUFLENGTH c ∧
    MAXRECVBUFLENGTH c ≤ UINT8_MAX ∧
    (c.SMALLFOOTPRINT = true → MAXRECVBUFLENGTH c = 100 ∧ c.INCLUDE_UART = false) ∧
    (c.INCLUDE_UART = true → MAXRECVBUFLENGTH c = 255) ∧
    (∀ (esc addr cmd state crc : Nat) (data : List Nat), data.length = MEASUREMENT_PAYLOAD →
        (wireFrame esc (replyContent addr cmd state data) crc).length ≤ 2 + 2 * 45 ∧
        (c.INCLUDE_UART = true →
          (wireFrame esc (replyContent addr cmd state data) crc).length ≤ MAXRECVBUFLENGTH c ∧
          (wireFrame esc (replyContent addr cmd state data) crc).length ≤ UINT8_MAX)) := by
  have hcap : c.INCLUDE_UART = true → MAXRECVBUFLENGTH c = 255 := by
    intro h
    simp only [BuildConfig.INCLUDE_UART, Bool.and_eq_true, Bool.not_eq_true'] at h
    simp [MAXRECVBUFLENGTH, h.2]
  refine ⟨by decide, by decide, ?_, ?_, ?_, hcap, ?_⟩
  · cases hs : c.SMALLFOOTPRINT <;> simp [MAXRECVBUFLENGTH, hs] <;> decide
  · cases hs : c.SMALLFOOTPRINT <;> simp [MAXRECVBUFLENGTH, hs, UINT8_MAX]
  · intro hs
    simp [MAXRECVBUFLENGTH, BuildConfig.INCLUDE_UART, hs]
  · intro esc addr cmd state crc data hdata
    have h := (length_wireFrame esc (replyContent addr cmd state data) crc).2
    have h40 : MEASUREMENT_PAYLOAD = 40 := by decide
    have hlen : (replyContent addr cmd state data).length = 44 := by
      simp [replyContent, hdata, h40]
    rw [hlen] at h
    refine ⟨by omega, fun hu => ?_⟩
    rw [hcap hu]
    simp only [UINT8_MAX]
    omega

end SPS30
